import Mathlib

/-!
Verification of the RUMBA cleaning-robot simulation (src/RUMBA/rumba.py).

The source program has two classes: `Casa` (the environment, which
procedurally places dirt spots on a grid) and `Rumba` (the agent, which
random-walks the grid with boundary clamping and cleans dirt it steps on),
plus a `__main__` driver loop bounded by `max_steps`.

Randomness is modelled by passing the random draws explicitly:
`random.randint(a, b)` becomes `randint a b raw`, which maps a raw natural
number onto the inclusive range `[a, b]` (and fails, like Python's
`ValueError`, when the range is empty); `random.choice` over the four
directions becomes an explicit `Fin 4` index.

Positions and grid dimensions are integers (`Int`), as in Python; the
out-of-bounds candidate position computed inside `move` before clamping can
be negative, so `Int` is the faithful carrier.

A second, heap-based model of the same classes (`Heap`, `RumbaH`,
`CasaH`) captures Python's reference semantics for the mutable lists
`dirt_positions` and `cleaned_spots`; it is used to settle the aliasing
claim about `get_state` and the environment-to-agent handoff.
-/

namespace RUMBA

/-- A grid position `(row, col)`. -/
abbrev Pos := Int × Int

/-- Python's `random.randint(lo, hi)`: a uniformly random integer in the
inclusive range `[lo, hi]`; raises `ValueError` when `hi < lo`.  The draw is
determined by the raw natural `raw`, mapped onto the range by `%`; every
value of the range is reachable, so quantifying over `raw` quantifies over
all possible draws. -/
def randint (lo hi : Int) (raw : Nat) : Option Int :=
  if hi < lo then none else some (lo + (raw : Int) % (hi - lo + 1))

/-- The environment class `Casa`: a grid size and the generated dirt spots. -/
structure Casa where
  grid_size : Int × Int
  dirt_positions : List Pos
deriving Repr, DecidableEq

/-- The loop body accumulator of `Casa._generate_dirt_spots`: for each raw
draw pair, draw a spot with two `randint` calls and append it to the
accumulator if it is not already present. -/
def genDirtAux (grid_size : Int × Int) (acc : List Pos) :
    List (Nat × Nat) → Option (List Pos)
  | [] => some acc
  | r :: rest => do
    let a ← randint 0 (grid_size.1 - 1) r.1
    let b ← randint 0 (grid_size.2 - 1) r.2
    let spot : Pos := (a, b)
    genDirtAux grid_size (if spot ∈ acc then acc else acc ++ [spot]) rest

/-- `Casa._generate_dirt_spots(num_dirt_spots)`: the Python loop runs exactly
`num_dirt_spots` iterations, one raw draw pair per iteration, so the supply
`raws` has length `num_dirt_spots`. -/
def generateDirtSpots (grid_size : Int × Int) (raws : List (Nat × Nat)) :
    Option (List Pos) :=
  genDirtAux grid_size [] raws

/-- `Casa.__init__(grid_size, num_dirt_spots)`: stores the grid size and the
generated dirt spots; fails exactly when a `randint` call inside the
generator raises. -/
def Casa.init (grid_size : Int × Int) (raws : List (Nat × Nat)) : Option Casa :=
  (generateDirtSpots grid_size raws).map fun dirt => ⟨grid_size, dirt⟩

/-- `Casa.get_dirt_positions()`. -/
def Casa.get_dirt_positions (c : Casa) : List Pos :=
  c.dirt_positions

/-- The agent class `Rumba`: grid size, remaining dirt, current position and
the list of cleaned spots. -/
structure RumbaState where
  grid_size : Int × Int
  dirt_positions : List Pos
  position : Pos
  cleaned_spots : List Pos
deriving Repr, DecidableEq

/-- `Rumba.__init__(grid_size, dirt_positions)`: stores the handed-over dirt
list (an empty or missing list becomes `[]`, which is the same value here)
and draws a random initial position with two `randint` calls. -/
def Rumba.init (grid_size : Int × Int) (dirt : List Pos) (raw : Nat × Nat) :
    Option RumbaState := do
  let r ← randint 0 (grid_size.1 - 1) raw.1
  let c ← randint 0 (grid_size.2 - 1) raw.2
  pure ⟨grid_size, dirt, (r, c), []⟩

/-- The direction list of `Rumba.move`: up, down, left, right. -/
def directions : List (Int × Int) := [(-1, 0), (1, 0), (0, -1), (0, 1)]

/-- `Rumba.move()`: pick the direction indexed by the random choice `d`, add
it to the position, clamp each coordinate independently into
`[0, dimension - 1]`, commit the new position, and if it carries dirt remove
that spot (Python `list.remove`: first occurrence) and append it to
`cleaned_spots`. -/
def move (s : RumbaState) (d : Fin 4) : RumbaState :=
  let move_dir := directions.get ⟨d.val, d.isLt⟩
  let candidate : Pos := (s.position.1 + move_dir.1, s.position.2 + move_dir.2)
  let new_position : Pos :=
    (max 0 (min (s.grid_size.1 - 1) candidate.1),
     max 0 (min (s.grid_size.2 - 1) candidate.2))
  if new_position ∈ s.dirt_positions then
    { s with position := new_position,
             dirt_positions := s.dirt_positions.erase new_position,
             cleaned_spots := s.cleaned_spots ++ [new_position] }
  else
    { s with position := new_position }

/-- `Rumba.is_clean()`: all dirt spots cleaned. -/
def is_clean (s : RumbaState) : Bool :=
  s.dirt_positions.length == 0

/-- Iterating `move` over an explicit list of direction choices. -/
def moveSeq (s : RumbaState) (ds : List (Fin 4)) : RumbaState :=
  ds.foldl move s

/-- The `__main__` driver loop, recursing on the remaining step budget
`fuel = max_steps - steps`: while the agent is not clean and budget remains,
move (direction stream `f`, indexed by the step counter) and count the step.
Returns the final state and the final step counter. -/
def runFrom (f : Nat → Fin 4) : Nat → RumbaState → Nat → RumbaState × Nat
  | 0, s, steps => (s, steps)
  | fuel + 1, s, steps =>
    if is_clean s then (s, steps)
    else runFrom f fuel (move s (f steps)) (steps + 1)

/-- The `__main__` driver: run the loop from step counter `0` with budget
`max_steps`; report success iff the final state is clean. -/
def runMain (f : Nat → Fin 4) (max_steps : Nat) (s : RumbaState) :
    RumbaState × Nat :=
  runFrom f max_steps s 0

/-! ### Heap model of Python reference semantics

Python lists are mutable objects; `self.dirt_positions = dirt_positions`
stores a reference, not a copy, and `get_state` puts the very same
references into the returned dict.  `Heap` is a store of list cells
addressed by naturals; `CasaH` and `RumbaH` are the two classes with their
list attributes replaced by cell addresses.  Mutation of a cell is visible
through every copy of its address. -/

/-- A store of `List Pos` cells addressed by naturals, with a fresh-address
counter. -/
structure Heap where
  cells : Nat → List Pos
  next : Nat

/-- Allocate a new cell holding `v`; returns its address and the new heap. -/
def Heap.alloc (h : Heap) (v : List Pos) : Nat × Heap :=
  (h.next, ⟨fun i => if i = h.next then v else h.cells i, h.next + 1⟩)

/-- Dereference a cell. -/
def Heap.read (h : Heap) (r : Nat) : List Pos :=
  h.cells r

/-- Overwrite a cell in place (a Python in-place list mutation such as
`remove`, `append` or `clear`). -/
def Heap.write (h : Heap) (r : Nat) (v : List Pos) : Heap :=
  ⟨fun i => if i = r then v else h.cells i, h.next⟩

/-- The empty heap. -/
def Heap.empty : Heap := ⟨fun _ => [], 0⟩

/-- `Casa` in the heap model: `dirt_positions` is a cell address. -/
structure CasaH where
  grid_size : Int × Int
  dirt_ref : Nat

/-- `Casa.__init__` in the heap model: generate the dirt spots and allocate
the `dirt_positions` list cell. -/
def CasaH.init (h : Heap) (grid_size : Int × Int) (raws : List (Nat × Nat)) :
    Option (CasaH × Heap) :=
  (generateDirtSpots grid_size raws).map fun dirt =>
    let (r, h1) := h.alloc dirt
    (⟨grid_size, r⟩, h1)

/-- `Casa.get_dirt_positions()` in the heap model: returns the reference to
the internal list, not a copy. -/
def CasaH.get_dirt_positions (c : CasaH) : Nat :=
  c.dirt_ref

/-- `Rumba` in the heap model: `dirt_positions` and `cleaned_spots` are
cell addresses. -/
structure RumbaH where
  grid_size : Int × Int
  dirt_ref : Nat
  position : Pos
  cleaned_ref : Nat

/-- `Rumba.__init__(grid_size, dirt_positions)` in the heap model:
`dirt_positions if dirt_positions else []` keeps the caller's reference when
the list is non-empty (truthy) and allocates a fresh empty list otherwise;
`cleaned_spots` is always a fresh empty list. -/
def RumbaH.init (h : Heap) (grid_size : Int × Int) (dirt_ref : Nat)
    (raw : Nat × Nat) : Option (RumbaH × Heap) := do
  let (dref, h1) :=
    if (h.read dirt_ref).isEmpty then h.alloc [] else (dirt_ref, h)
  let r ← randint 0 (grid_size.1 - 1) raw.1
  let c ← randint 0 (grid_size.2 - 1) raw.2
  let (cref, h2) := h1.alloc []
  pure (⟨grid_size, dref, (r, c), cref⟩, h2)

/-- `Rumba.move()` in the heap model: the position update is as in `move`;
`remove` and `append` mutate the two list cells in place. -/
def RumbaH.move (s : RumbaH) (h : Heap) (d : Fin 4) : RumbaH × Heap :=
  let move_dir := directions.get ⟨d.val, d.isLt⟩
  let candidate : Pos := (s.position.1 + move_dir.1, s.position.2 + move_dir.2)
  let new_position : Pos :=
    (max 0 (min (s.grid_size.1 - 1) candidate.1),
     max 0 (min (s.grid_size.2 - 1) candidate.2))
  let s1 : RumbaH := { s with position := new_position }
  if new_position ∈ h.read s1.dirt_ref then
    (s1,
      (h.write s1.dirt_ref ((h.read s1.dirt_ref).erase new_position)).write
        s1.cleaned_ref (h.read s1.cleaned_ref ++ [new_position]))
  else
    (s1, h)

/-- The snapshot dict returned by `Rumba.get_state()` in the heap model:
the `dirt_positions` and `cleaned_spots` entries are references. -/
structure StateViewH where
  position : Pos
  dirt_ref : Nat
  cleaned_ref : Nat
deriving DecidableEq

/-- `Rumba.get_state()` in the heap model: packs the current position and
the internal list references into the snapshot. -/
def RumbaH.get_state (s : RumbaH) : StateViewH :=
  ⟨s.position, s.dirt_ref, s.cleaned_ref⟩

/-- `Rumba.is_clean()` in the heap model. -/
def RumbaH.is_clean (s : RumbaH) (h : Heap) : Bool :=
  (h.read s.dirt_ref).length == 0

/-- A concrete run exhibiting the reference semantics of the handoff and of
`get_state`, on a `(3, 3)` grid with one dirt spot `(0, 0)` and the agent
starting at `(0, 1)`.  Returns three observations:
1. the environment's dirt list right after the handoff (`[(0, 0)]`);
2. what `is_clean()` reports after a caller clears the `dirt_positions`
   entry of the snapshot returned by `get_state()` (without any cleaning);
3. the environment's own dirt list after the agent moves left onto `(0, 0)`
   and cleans it. -/
def aliasScenario : Option (List Pos × Bool × List Pos) := do
  let (casa, h1) ← CasaH.init Heap.empty (3, 3) [(0, 0)]
  let (rumba, h2) ← RumbaH.init h1 (3, 3) casa.get_dirt_positions (0, 1)
  let view := rumba.get_state
  let hMut := h2.write view.dirt_ref []
  let snapshotLeak := rumba.is_clean hMut
  let (_, h3) := rumba.move h2 2
  let envDirt := h3.read casa.get_dirt_positions
  pure (h2.read casa.get_dirt_positions, snapshotLeak, envDirt)

/-- A position is inside the grid `(rows, cols)`. -/
def inBounds (grid_size : Int × Int) (p : Pos) : Prop :=
  0 ≤ p.1 ∧ p.1 < grid_size.1 ∧ 0 ≤ p.2 ∧ p.2 < grid_size.2

instance (grid_size : Int × Int) (p : Pos) : Decidable (inBounds grid_size p) := by
  unfold inBounds; infer_instance

/-! ### Helper lemmas -/

/-- The committed position of a `move`: each coordinate of the candidate
position is clamped independently into `[0, dimension - 1]`. -/
lemma move_position_eq (s : RumbaState) (d : Fin 4) :
    (move s d).position =
      (max 0 (min (s.grid_size.1 - 1)
          (s.position.1 + (directions.get ⟨d.val, d.isLt⟩).1)),
       max 0 (min (s.grid_size.2 - 1)
          (s.position.2 + (directions.get ⟨d.val, d.isLt⟩).2))) := by
  unfold move
  dsimp only
  split <;> rfl

/-- `move` never changes the grid size. -/
lemma move_grid_eq (s : RumbaState) (d : Fin 4) :
    (move s d).grid_size = s.grid_size := by
  unfold move
  dsimp only
  split <;> rfl

/-- The four possible direction vectors. -/
lemma dir_cases (d : Fin 4) :
    directions.get ⟨d.val, d.isLt⟩ = (-1, 0) ∨
    directions.get ⟨d.val, d.isLt⟩ = (1, 0) ∨
    directions.get ⟨d.val, d.isLt⟩ = (0, -1) ∨
    directions.get ⟨d.val, d.isLt⟩ = (0, 1) := by
  fin_cases d <;> decide

/-- The two branches of the cleaning step of `move`: either the committed
position carries dirt, which is removed and appended to `cleaned_spots`, or
both lists are unchanged. -/
lemma move_branch (s : RumbaState) (d : Fin 4) :
    ((move s d).position ∈ s.dirt_positions ∧
      (move s d).dirt_positions = s.dirt_positions.erase (move s d).position ∧
      (move s d).cleaned_spots = s.cleaned_spots ++ [(move s d).position]) ∨
    ((move s d).position ∉ s.dirt_positions ∧
      (move s d).dirt_positions = s.dirt_positions ∧
      (move s d).cleaned_spots = s.cleaned_spots) := by
  unfold move
  dsimp only
  split
  · left; simp_all
  · right; simp_all

/-- One `move` preserves `cleaned_spots.length + dirt_positions.length`:
`list.remove` deletes exactly one occurrence and `append` adds exactly
one element. -/
lemma move_conserve (s : RumbaState) (d : Fin 4) :
    (move s d).cleaned_spots.length + (move s d).dirt_positions.length =
      s.cleaned_spots.length + s.dirt_positions.length := by
  rcases move_branch s d with ⟨hm, hd, hc⟩ | ⟨_, hd, hc⟩ <;> rw [hd, hc]
  · rw [List.length_append, List.length_erase_of_mem hm]
    have := List.length_pos.mpr (List.ne_nil_of_mem hm)
    simp only [List.length_cons, List.length_nil]
    omega

/-- `moveSeq` preserves `cleaned_spots.length + dirt_positions.length`. -/
lemma moveSeq_conserve (ds : List (Fin 4)) :
    ∀ s : RumbaState,
      (moveSeq s ds).cleaned_spots.length + (moveSeq s ds).dirt_positions.length =
        s.cleaned_spots.length + s.dirt_positions.length := by
  induction ds with
  | nil => intro s; rfl
  | cons d rest ih =>
    intro s
    have h1 : moveSeq s (d :: rest) = moveSeq (move s d) rest := rfl
    rw [h1, ih (move s d), move_conserve]

/-- With `1 ≤ m`, `random.randint(0, m - 1)` succeeds and returns the raw
draw reduced modulo `m`. -/
lemma randint_some (m : Int) (raw : Nat) (h : 1 ≤ m) :
    randint 0 (m - 1) raw = some ((raw : Int) % m) := by
  unfold randint
  rw [if_neg (by omega)]
  norm_num

/-- A value drawn modulo `m ≥ 1` lies in `[0, m)`. -/
lemma emod_bounds (m : Int) (raw : Nat) (h : 1 ≤ m) :
    0 ≤ (raw : Int) % m ∧ (raw : Int) % m < m :=
  ⟨Int.emod_nonneg _ (by omega), Int.emod_lt_of_pos _ (by omega)⟩

/-- Loop invariant of the dirt generator: starting from a duplicate-free,
in-bounds accumulator, the result is duplicate-free, in-bounds, and grows by
at most one element per raw draw. -/
lemma genDirtAux_inv (rows cols : Int) (hr : 1 ≤ rows) (hc : 1 ≤ cols) :
    ∀ (raws : List (Nat × Nat)) (acc : List Pos), acc.Nodup →
      (∀ p ∈ acc, inBounds (rows, cols) p) →
      ∀ l, genDirtAux (rows, cols) acc raws = some l →
        l.Nodup ∧ (∀ p ∈ l, inBounds (rows, cols) p) ∧
          l.length ≤ acc.length + raws.length := by
  intro raws
  induction raws with
  | nil =>
    intro acc h1 h2 l hl
    simp only [genDirtAux] at hl
    cases hl
    exact ⟨h1, h2, by omega⟩
  | cons r rest ih =>
    intro acc h1 h2 l hl
    rw [genDirtAux] at hl
    simp only [randint_some rows r.1 hr, randint_some cols r.2 hc,
      Option.bind_eq_bind, Option.some_bind] at hl
    set spot : Pos := ((r.1 : Int) % rows, (r.2 : Int) % cols) with hspot
    have hsb : inBounds (rows, cols) spot :=
      ⟨(emod_bounds rows r.1 hr).1, (emod_bounds rows r.1 hr).2,
       (emod_bounds cols r.2 hc).1, (emod_bounds cols r.2 hc).2⟩
    by_cases hmem : spot ∈ acc
    · rw [if_pos hmem] at hl
      have := ih acc h1 h2 l hl
      exact ⟨this.1, this.2.1, by have := this.2.2; simp only [List.length_cons]; omega⟩
    · rw [if_neg hmem] at hl
      have hnd : (acc ++ [spot]).Nodup := by
        simp [List.nodup_append, h1, hmem]
      have hb : ∀ p ∈ acc ++ [spot], inBounds (rows, cols) p := by
        intro p hp
        rcases List.mem_append.mp hp with hp | hp
        · exact h2 p hp
        · simp only [List.mem_singleton] at hp
          exact hp ▸ hsb
      have := ih (acc ++ [spot]) hnd hb l hl
      refine ⟨this.1, this.2.1, ?_⟩
      have h5 := this.2.2
      rw [List.length_append, List.length_singleton] at h5
      simp only [List.length_cons]
      omega

/-- If the state is already clean, the driver loop exits immediately. -/
lemma runFrom_clean (f : Nat → Fin 4) (fuel : Nat) (s : RumbaState) (steps : Nat)
    (h : is_clean s = true) : runFrom f fuel s steps = (s, steps) := by
  cases fuel with
  | zero => rfl
  | succ n => simp [runFrom, h]

/-- The driver loop consumes at most its remaining budget. -/
lemma runFrom_le (f : Nat → Fin 4) :
    ∀ (fuel : Nat) (s : RumbaState) (steps : Nat),
      (runFrom f fuel s steps).2 ≤ steps + fuel := by
  intro fuel
  induction fuel with
  | zero => intro s steps; simp [runFrom]
  | succ n ih =>
    intro s steps
    rw [runFrom]
    split
    · simp
    · have := ih (move s (f steps)) (steps + 1)
      omega

/-! ### Claims -/

/-- Claim C3: on any grid with `rows, cols ≥ 1`, every dirt spot produced by
the generator, the agent's initial position, and the agent's position after
every `step()` lie within `0 ≤ row < rows` and `0 ≤ col < cols`. -/
theorem claim_C3 (rows cols : Int) (hr : 1 ≤ rows) (hc : 1 ≤ cols) :
    (∀ (raws : List (Nat × Nat)) (l : List Pos),
        generateDirtSpots (rows, cols) raws = some l →
        ∀ p ∈ l, inBounds (rows, cols) p) ∧
    (∀ (dirt : List Pos) (raw : Nat × Nat) (s : RumbaState),
        Rumba.init (rows, cols) dirt raw = some s →
        inBounds (rows, cols) s.position) ∧
    (∀ (s : RumbaState) (d : Fin 4), s.grid_size = (rows, cols) →
        inBounds (rows, cols) (move s d).position) := by
  refine ⟨?_, ?_, ?_⟩
  · intro raws l hl
    exact (genDirtAux_inv rows cols hr hc raws [] List.nodup_nil
      (by simp) l hl).2.1
  · intro dirt raw s hs
    simp only [Rumba.init, randint_some rows raw.1 hr,
      randint_some cols raw.2 hc, Option.bind_eq_bind, Option.some_bind,
      Option.pure_def, Option.some.injEq] at hs
    cases hs
    exact ⟨(emod_bounds rows raw.1 hr).1, (emod_bounds rows raw.1 hr).2,
           (emod_bounds cols raw.2 hc).1, (emod_bounds cols raw.2 hc).2⟩
  · intro s d hgrid
    refine ⟨?_, ?_, ?_, ?_⟩ <;> rw [move_position_eq, hgrid] <;>
      dsimp only <;> omega

/-- Witness for C3 at a concrete in-bounds instance. -/
theorem claim_C3_witness :
    inBounds (3, 3) (move ⟨(3, 3), [], (5, 7), []⟩ 0).position :=
  (claim_C3 3 3 (by norm_num) (by norm_num)).2.2 ⟨(3, 3), [], (5, 7), []⟩ 0 rfl

/-- Claim C4: with duplicate-free dirt, one `step()` either leaves the dirt
count and `cleaned` unchanged, or removes exactly one spot (the committed
position) and appends exactly that spot to `cleaned`; after any direction
sequence from a fresh state, `cleaned` has length
`initial_dirt_count - remaining_dirt_count`. -/
theorem claim_C4 :
    (∀ (s : RumbaState) (d : Fin 4), s.dirt_positions.Nodup →
      ((move s d).dirt_positions.length = s.dirt_positions.length ∧
        (move s d).cleaned_spots = s.cleaned_spots) ∨
      ((move s d).dirt_positions.length + 1 = s.dirt_positions.length ∧
        (move s d).dirt_positions =
          s.dirt_positions.erase (move s d).position ∧
        (move s d).cleaned_spots =
          s.cleaned_spots ++ [(move s d).position])) ∧
    (∀ (s : RumbaState) (ds : List (Fin 4)), s.dirt_positions.Nodup →
      s.cleaned_spots = [] →
      (moveSeq s ds).cleaned_spots.length =
        s.dirt_positions.length - (moveSeq s ds).dirt_positions.length) := by
  constructor
  · intro s d _
    rcases move_branch s d with ⟨hm, hd, hc⟩ | ⟨_, hd, hc⟩
    · right
      refine ⟨?_, hd, hc⟩
      rw [hd, List.length_erase_of_mem hm]
      have := List.length_pos.mpr (List.ne_nil_of_mem hm)
      omega
    · left
      exact ⟨by rw [hd], hc⟩
  · intro s ds _ hcl
    have h := moveSeq_conserve ds s
    rw [hcl] at h
    simp only [List.length_nil] at h
    omega

/-- Witness for C4 on the concrete scripted run. -/
theorem claim_C4_witness :
    (moveSeq ⟨(3, 3), [(0, 0)], (2, 2), []⟩ [0, 0, 2, 2]).cleaned_spots.length =
      ([(0, 0)] : List Pos).length -
        (moveSeq ⟨(3, 3), [(0, 0)], (2, 2), []⟩ [0, 0, 2, 2]).dirt_positions.length :=
  claim_C4.2 ⟨(3, 3), [(0, 0)], (2, 2), []⟩ [0, 0, 2, 2] (by decide) rfl

/-- Claim C5: `step()` clamps each coordinate of the candidate position
independently into `[0, dimension - 1]`; in particular from `(0, 0)` on a
`(5, 5)` grid a step up yields `(0, 0)` again, and the step still consumes
budget in the driver loop. -/
theorem claim_C5 :
    (∀ (s : RumbaState) (d : Fin 4),
      (move s d).position =
        (max 0 (min (s.grid_size.1 - 1)
            (s.position.1 + (directions.get ⟨d.val, d.isLt⟩).1)),
         max 0 (min (s.grid_size.2 - 1)
            (s.position.2 + (directions.get ⟨d.val, d.isLt⟩).2)))) ∧
    (move ⟨(5, 5), [(3, 3)], (0, 0), []⟩ 0).position = (0, 0) ∧
    (runFrom (fun _ => 0) 1 ⟨(5, 5), [(3, 3)], (0, 0), []⟩ 0).2 = 1 :=
  ⟨move_position_eq, by decide, by decide⟩

/-- Claim C6: completion is absorbing — with no dirt left, `step()` keeps
the dirt list empty and `cleaned` unchanged, while the position may still
change. -/
theorem claim_C6 :
    (∀ (s : RumbaState) (d : Fin 4), s.dirt_positions = [] →
      (move s d).dirt_positions = [] ∧ is_clean (move s d) = true ∧
        (move s d).cleaned_spots = s.cleaned_spots) ∧
    (move ⟨(3, 3), [], (1, 1), []⟩ 0).position ≠ (1, 1) := by
  constructor
  · intro s d h
    rcases move_branch s d with ⟨hm, _, _⟩ | ⟨_, hd, hc⟩
    · rw [h] at hm
      exact absurd hm (List.not_mem_nil _)
    · rw [h] at hd
      exact ⟨hd, by simp [is_clean, hd], hc⟩
  · decide

/-- Witness for C6 at a concrete clean state. -/
theorem claim_C6_witness :
    (move ⟨(3, 3), [], (2, 2), []⟩ 0).dirt_positions = [] ∧
      is_clean (move ⟨(3, 3), [], (2, 2), []⟩ 0) = true ∧
      (move ⟨(3, 3), [], (2, 2), []⟩ 0).cleaned_spots = [] :=
  claim_C6.1 ⟨(3, 3), [], (2, 2), []⟩ 0 rfl

/-- Claim C8: the scripted scenario — grid `(3, 3)`, dirt `{(0, 0)}`, agent
at `(2, 2)`, directions `[up, up, left, left]` — ends at `(0, 0)`, clean,
with `cleaned = [(0, 0)]`. -/
theorem claim_C8 :
    moveSeq ⟨(3, 3), [(0, 0)], (2, 2), []⟩ [0, 0, 2, 2] =
      ⟨(3, 3), [], (0, 0), [(0, 0)]⟩ ∧
    is_clean (moveSeq ⟨(3, 3), [(0, 0)], (2, 2), []⟩ [0, 0, 2, 2]) = true := by
  decide

/-- Claim C10: from an in-bounds position, one `step()` changes at most one
coordinate, by at most `1` in absolute value (Manhattan distance of
consecutive positions is at most `1`). -/
theorem claim_C10 (s : RumbaState) (d : Fin 4)
    (h : inBounds s.grid_size s.position) :
    ((move s d).position.1 - s.position.1).natAbs +
        ((move s d).position.2 - s.position.2).natAbs ≤ 1 ∧
      ((move s d).position.1 = s.position.1 ∨
        (move s d).position.2 = s.position.2) := by
  obtain ⟨h1, h2, h3, h4⟩ := h
  rw [move_position_eq]
  rcases dir_cases d with hd | hd | hd | hd <;> rw [hd] <;> dsimp only <;>
    refine ⟨by omega, ?_⟩
  · right; omega
  · right; omega
  · left; omega
  · left; omega

/-- Witness for C10 at a concrete in-bounds state. -/
theorem claim_C10_witness :
    ((move ⟨(5, 5), [], (2, 2), []⟩ 0).position.1 - (2 : Int)).natAbs +
        ((move ⟨(5, 5), [], (2, 2), []⟩ 0).position.2 - (2 : Int)).natAbs ≤ 1 ∧
      ((move ⟨(5, 5), [], (2, 2), []⟩ 0).position.1 = (2 : Int) ∨
        (move ⟨(5, 5), [], (2, 2), []⟩ 0).position.2 = (2 : Int)) :=
  claim_C10 ⟨(5, 5), [], (2, 2), []⟩ 0 (by decide)

/-- Counterexample to C1 as stated: on a `(2, 2)` grid with
`requested_count = 2 ≤ rows * cols = 4`, the raw draw sequence that yields
`(0, 0)` twice produces a set of size `1`, not `2` — the generator runs
exactly `requested_count` iterations and does not retry duplicates. -/
theorem claim_C1_counterexample :
    generateDirtSpots (2, 2) [(0, 0), (0, 0)] = some [(0, 0)] ∧
      ([(0, 0), (0, 0)] : List (Nat × Nat)).length = 2 ∧
      (2 : Nat) ≤ 2 * 2 ∧ ([(0, 0)] : List Pos).length ≠ 2 := by
  decide

/-- Claim C1 (amended): the generated `DirtSet` is duplicate-free and has
size at most `min(requested_count, rows * cols)`; an exact size of
`requested_count` is not guaranteed, since a repeated draw consumes an
iteration without adding a spot even when `requested_count ≤ rows * cols`. -/
theorem claim_C1 (rows cols : Int) (raws : List (Nat × Nat)) (l : List Pos)
    (hr : 1 ≤ rows) (hc : 1 ≤ cols)
    (hgen : generateDirtSpots (rows, cols) raws = some l) :
    l.Nodup ∧ l.length ≤ raws.length ∧ (l.length : Int) ≤ rows * cols := by
  obtain ⟨hnd, hb, hlen⟩ :=
    genDirtAux_inv rows cols hr hc raws [] List.nodup_nil (by simp) l hgen
  refine ⟨hnd, by simpa using hlen, ?_⟩
  have hsub : l.toFinset ⊆
      Finset.Ico (0 : Int) rows ×ˢ Finset.Ico (0 : Int) cols := by
    intro p hp
    obtain ⟨a1, a2, a3, a4⟩ := hb p (List.mem_toFinset.mp hp)
    simp only [Finset.mem_product, Finset.mem_Ico]
    exact ⟨⟨a1, a2⟩, a3, a4⟩
  have hcard := Finset.card_le_card hsub
  rw [List.toFinset_card_of_nodup hnd, Finset.card_product,
    Int.card_Ico, Int.card_Ico] at hcard
  have h1 : ((rows - 0).toNat : Int) = rows := by omega
  have h2 : ((cols - 0).toNat : Int) = cols := by omega
  calc (l.length : Int)
      ≤ (((rows - 0).toNat * (cols - 0).toNat : Nat) : Int) := by
        exact_mod_cast hcard
    _ = rows * cols := by rw [Nat.cast_mul, h1, h2]

/-- Witness for C1 (amended) at a concrete duplicate-free run. -/
theorem claim_C1_witness :
    ([((0 : Int), (0 : Int)), (1, 1)] : List Pos).Nodup ∧
      ([((0 : Int), (0 : Int)), (1, 1)] : List Pos).length ≤
        ([(0, 0), (3, 3)] : List (Nat × Nat)).length ∧
      ((([((0 : Int), (0 : Int)), (1, 1)] : List Pos).length : Int) ≤ 2 * 2) :=
  claim_C1 2 2 [(0, 0), (3, 3)] [(0, 0), (1, 1)] (by norm_num) (by norm_num)
    (by decide)

/-- Counterexample to C2 as stated: `Casa` with `rows = 0` and
`num_dirt_spots = 0` constructs successfully — no dimension validation is
performed, and with no draws no `randint` call can raise. -/
theorem claim_C2_counterexample :
    Casa.init ((0 : Int), 5) [] = some ⟨((0 : Int), 5), []⟩ ∧ (0 : Int) ≤ 0 := by
  decide

/-- Claim C2 (amended): there is no explicit validation; construction fails
only because `random.randint(0, dim - 1)` raises on an empty range.  `Rumba`
construction always fails on a non-positive dimension (it always draws its
initial position), and `Casa` construction fails on a non-positive dimension
whenever `num_dirt_spots ≥ 1`; with `num_dirt_spots = 0`, `Casa` accepts the
invalid grid. -/
theorem claim_C2 :
    (∀ (grid_size : Int × Int) (dirt : List Pos) (raw : Nat × Nat),
        grid_size.1 ≤ 0 ∨ grid_size.2 ≤ 0 →
        Rumba.init grid_size dirt raw = none) ∧
    (∀ (grid_size : Int × Int) (r : Nat × Nat) (raws : List (Nat × Nat)),
        grid_size.1 ≤ 0 ∨ grid_size.2 ≤ 0 →
        Casa.init grid_size (r :: raws) = none) := by
  constructor
  · intro g dirt raw h
    by_cases h1 : g.1 - 1 < 0
    · simp [Rumba.init, randint, h1]
    · have h2 : g.2 - 1 < 0 := by omega
      simp [Rumba.init, randint, h1, h2]
  · intro g r raws h
    have hnone : genDirtAux g [] (r :: raws) = none := by
      rw [genDirtAux]
      by_cases h1 : g.1 - 1 < 0
      · simp [randint, h1]
      · have h2 : g.2 - 1 < 0 := by omega
        simp [randint, h1, h2]
    simp [Casa.init, generateDirtSpots, hnone]

/-- Witness for C2 (amended) at concrete invalid grids. -/
theorem claim_C2_witness :
    Rumba.init ((0 : Int), 5) [] (0, 0) = none ∧
      Casa.init ((-2 : Int), 5) [(0, 0)] = none :=
  ⟨claim_C2.1 ((0 : Int), 5) [] (0, 0) (Or.inl (by norm_num)),
   claim_C2.2 ((-2 : Int), 5) (0, 0) [] (Or.inl (by norm_num))⟩

/-- Claim C7: the driver loop performs at most `max_steps` iterations, so
`0 ≤ steps_taken ≤ max_steps`; with no dirt, the loop body never runs and
the run reports success with `steps_taken = 0`. -/
theorem claim_C7 (f : Nat → Fin 4) (max_steps : Nat) (s : RumbaState)
    (_hpos : 0 < max_steps) :
    (runMain f max_steps s).2 ≤ max_steps ∧
    (s.dirt_positions = [] →
      runMain f max_steps s = (s, 0) ∧
      is_clean (runMain f max_steps s).1 = true) := by
  constructor
  · have := runFrom_le f max_steps s 0
    simpa [runMain] using this
  · intro hd
    have hcl : is_clean s = true := by simp [is_clean, hd]
    have hrun : runMain f max_steps s = (s, 0) :=
      runFrom_clean f max_steps s 0 hcl
    exact ⟨hrun, by rw [hrun]; exact hcl⟩

/-- Witness for C7 on a concrete dirt-free run. -/
theorem claim_C7_witness :
    (runMain (fun _ => (0 : Fin 4)) 3 ⟨(2, 2), [], (0, 0), []⟩).2 ≤ 3 ∧
      runMain (fun _ => (0 : Fin 4)) 3 ⟨(2, 2), [], (0, 0), []⟩ =
        (⟨(2, 2), [], (0, 0), []⟩, 0) :=
  ⟨(claim_C7 (fun _ => 0) 3 ⟨(2, 2), [], (0, 0), []⟩ (by norm_num)).1,
   ((claim_C7 (fun _ => 0) 3 ⟨(2, 2), [], (0, 0), []⟩ (by norm_num)).2 rfl).1⟩

/-- Claim C9, settled against the heap model: `get_state` hands out the
very references to the internal lists, and the handoff shares the
environment's list.  In `aliasScenario`: right after the handoff the
environment's dirt list is `[(0, 0)]`; clearing the snapshot's
`dirt_positions` entry makes `is_clean()` report `true` without any
cleaning; and after the agent cleans `(0, 0)` the environment's own dirt
list has become `[]`. -/
theorem claim_C9 :
    aliasScenario = some ([(0, 0)], true, []) ∧
    (∀ s : RumbaH, (RumbaH.get_state s).dirt_ref = s.dirt_ref ∧
      (RumbaH.get_state s).cleaned_ref = s.cleaned_ref) :=
  ⟨by decide, fun _ => ⟨rfl, rfl⟩⟩

end RUMBA
